import Mathlib

/-!
Verification of the ShopSmart storefront resilient API-access layer:
circuit breaker, retry executor, interceptors and metrics, embedded from
the `CircuitBreaker` and `APIClient` classes of the storefront source.
-/

namespace ShopSmart

/-!
## Circuit breaker

Embeds the `CircuitBreaker` class.  The JS `state` field is a string with
values "CLOSED", "OPEN" and "HALF_OPEN"; times are millisecond
timestamps, modelled as `Nat`.
-/

structure CircuitBreaker where
  threshold : Nat
  timeout : Nat
  monitoringPeriod : Nat
  failureCount : Nat
  lastFailureTime : Option Nat
  state : String
  nextAttempt : Nat
deriving DecidableEq, Repr

/-- `new CircuitBreaker(threshold, timeout, monitoringPeriod)` evaluated
when the current clock reads `now` (the constructor sets
`nextAttempt = Date.now()`). -/
def newCircuitBreaker (threshold timeout monitoringPeriod now : Nat) :
    CircuitBreaker :=
  { threshold := threshold
    timeout := timeout
    monitoringPeriod := monitoringPeriod
    failureCount := 0
    lastFailureTime := none
    state := "CLOSED"
    nextAttempt := now }

/-- One firing of the `startMonitoring` interval callback at clock `now`. -/
def monitorTick (cb : CircuitBreaker) (now : Nat) : CircuitBreaker :=
  if cb.state = "OPEN" ∧ cb.nextAttempt ≤ now then
    { cb with state := "HALF_OPEN" }
  else cb

/-- `CircuitBreaker.onSuccess`. -/
def onSuccess (cb : CircuitBreaker) : CircuitBreaker :=
  let cb1 := { cb with failureCount := 0 }
  if cb1.state = "HALF_OPEN" then { cb1 with state := "CLOSED" } else cb1

/-- `CircuitBreaker.onFailure` at clock `now`. -/
def onFailure (cb : CircuitBreaker) (now : Nat) : CircuitBreaker :=
  let cb1 := { cb with
    failureCount := cb.failureCount + 1
    lastFailureTime := some now }
  if cb1.threshold ≤ cb1.failureCount then
    { cb1 with state := "OPEN", nextAttempt := now + cb1.timeout }
  else cb1

/-- Outcome of one `execute(operation)` call: either the distinct
rejection error thrown while OPEN, or the wrapped operation's own
success/failure. -/
inductive ExecResult where
  | circuitOpenError
  | opResult (ok : Bool)
deriving DecidableEq, Repr

/-- Observable effect of one `execute(operation)` call: its outcome,
whether the wrapped operation was invoked, and the breaker afterwards. -/
structure ExecStep where
  result : ExecResult
  invoked : Bool
  cb : CircuitBreaker
deriving DecidableEq, Repr

/-- `CircuitBreaker.execute(operation)` where the wrapped operation
would succeed iff `ok`, evaluated at clock `now`. -/
def execute (cb : CircuitBreaker) (ok : Bool) (now : Nat) : ExecStep :=
  if cb.state = "OPEN" then
    { result := .circuitOpenError, invoked := false, cb := cb }
  else if ok then
    { result := .opResult true, invoked := true, cb := onSuccess cb }
  else
    { result := .opResult false, invoked := true, cb := onFailure cb now }

/-- The events that mutate a breaker: an `execute` whose operation
succeeds, one whose operation fails, and a monitoring-timer firing. -/
inductive BreakerEvt where
  | opSuccess
  | opFailure
  | timerTick
deriving DecidableEq, Repr

/-- State transition of the breaker under one event at clock `now`. -/
def stepFn (cb : CircuitBreaker) (e : BreakerEvt) (now : Nat) :
    CircuitBreaker :=
  match e with
  | .opSuccess => (execute cb true now).cb
  | .opFailure => (execute cb false now).cb
  | .timerTick => monitorTick cb now

/-- Run a trace of timed events from a breaker state. -/
def runTrace (cb : CircuitBreaker) : List (BreakerEvt × Nat) → CircuitBreaker
  | [] => cb
  | (e, t) :: rest => runTrace (stepFn cb e t) rest

/-- A breaker state reachable from some freshly constructed breaker. -/
def Reachable (cb : CircuitBreaker) : Prop :=
  ∃ th tmo mp n0 trace, cb = runTrace (newCircuitBreaker th tmo mp n0) trace

/-- Invariant: whenever the breaker is OPEN or HALF_OPEN, the failure
count has reached the threshold. -/
def breakerInv (cb : CircuitBreaker) : Prop :=
  cb.state = "OPEN" ∨ cb.state = "HALF_OPEN" →
    cb.threshold ≤ cb.failureCount

/-- Apply `n` consecutive failing `execute` calls at the given clocks. -/
def failTimes (cb : CircuitBreaker) : List Nat → CircuitBreaker
  | [] => cb
  | t :: ts => failTimes (stepFn cb .opFailure t) ts

/-! ### Basic step-shape lemmas -/

theorem execute_open (cb : CircuitBreaker) (ok : Bool) (now : Nat)
    (h : cb.state = "OPEN") :
    execute cb ok now =
      { result := .circuitOpenError, invoked := false, cb := cb } := by
  simp [execute, h]

theorem execute_notOpen_true (cb : CircuitBreaker) (now : Nat)
    (h : ¬ cb.state = "OPEN") :
    execute cb true now =
      { result := .opResult true, invoked := true, cb := onSuccess cb } := by
  simp [execute, h]

theorem execute_notOpen_false (cb : CircuitBreaker) (now : Nat)
    (h : ¬ cb.state = "OPEN") :
    execute cb false now =
      { result := .opResult false, invoked := true, cb := onFailure cb now } := by
  simp [execute, h]

theorem onSuccess_halfOpen (cb : CircuitBreaker)
    (h : cb.state = "HALF_OPEN") :
    (onSuccess cb).state = "CLOSED" ∧ (onSuccess cb).failureCount = 0 ∧
      (onSuccess cb).threshold = cb.threshold := by
  unfold onSuccess
  simp [h]

theorem onSuccess_notHalfOpen (cb : CircuitBreaker)
    (h : ¬ cb.state = "HALF_OPEN") :
    (onSuccess cb).state = cb.state ∧ (onSuccess cb).failureCount = 0 ∧
      (onSuccess cb).threshold = cb.threshold := by
  unfold onSuccess
  simp [h]

theorem onSuccess_failureCount (cb : CircuitBreaker) :
    (onSuccess cb).failureCount = 0 := by
  unfold onSuccess
  by_cases h : cb.state = "HALF_OPEN" <;> simp [h]

theorem onFailure_trip (cb : CircuitBreaker) (t : Nat)
    (h : cb.threshold ≤ cb.failureCount + 1) :
    (onFailure cb t).state = "OPEN" ∧
      (onFailure cb t).failureCount = cb.failureCount + 1 ∧
      (onFailure cb t).threshold = cb.threshold ∧
      (onFailure cb t).nextAttempt = t + cb.timeout := by
  unfold onFailure
  simp [h]

theorem onFailure_noTrip (cb : CircuitBreaker) (t : Nat)
    (h : cb.failureCount + 1 < cb.threshold) :
    (onFailure cb t).state = cb.state ∧
      (onFailure cb t).failureCount = cb.failureCount + 1 ∧
      (onFailure cb t).threshold = cb.threshold := by
  unfold onFailure
  have h2 : ¬ cb.threshold ≤ cb.failureCount + 1 := by omega
  simp [h2]

theorem stepFn_threshold (cb : CircuitBreaker) (e : BreakerEvt) (t : Nat) :
    (stepFn cb e t).threshold = cb.threshold := by
  cases e <;>
    simp only [stepFn, execute, onSuccess, onFailure, monitorTick] <;>
    split_ifs <;> rfl

/-! ### The threshold invariant and reachability -/

theorem breakerInv_new (th tmo mp n0 : Nat) :
    breakerInv (newCircuitBreaker th tmo mp n0) := by
  intro hdisj
  rcases hdisj with h1 | h1 <;> simp [newCircuitBreaker] at h1

theorem breakerInv_stepFn (cb : CircuitBreaker) (e : BreakerEvt) (t : Nat)
    (h : breakerInv cb) : breakerInv (stepFn cb e t) := by
  unfold breakerInv at h ⊢
  cases e with
  | opSuccess =>
    by_cases hop : cb.state = "OPEN"
    · simpa [stepFn, execute_open cb true t hop] using h
    · rw [stepFn, execute_notOpen_true cb t hop]
      by_cases hh : cb.state = "HALF_OPEN"
      · obtain ⟨h1, _, _⟩ := onSuccess_halfOpen cb hh
        rw [h1]
        intro hdisj
        rcases hdisj with h2 | h2 <;> simp at h2
      · obtain ⟨h1, _, _⟩ := onSuccess_notHalfOpen cb hh
        rw [h1]
        intro hdisj
        rcases hdisj with h2 | h2
        · exact absurd h2 hop
        · exact absurd h2 hh
  | opFailure =>
    by_cases hop : cb.state = "OPEN"
    · simpa [stepFn, execute_open cb false t hop] using h
    · rw [stepFn, execute_notOpen_false cb t hop]
      by_cases htr : cb.threshold ≤ cb.failureCount + 1
      · obtain ⟨_, h2, h3, _⟩ := onFailure_trip cb t htr
        rw [h2, h3]
        intro _
        exact htr
      · obtain ⟨h1, h2, h3⟩ := onFailure_noTrip cb t (by omega)
        rw [h1, h2, h3]
        intro hdisj
        rcases hdisj with h4 | h4
        · exact absurd h4 hop
        · exact le_trans (h (Or.inr h4)) (Nat.le_succ _)
  | timerTick =>
    unfold stepFn monitorTick
    by_cases hc : cb.state = "OPEN" ∧ cb.nextAttempt ≤ t
    · simp only [hc, if_true]
      intro _
      exact h (Or.inl hc.1)
    · simpa [hc] using h

theorem breakerInv_runTrace (cb : CircuitBreaker)
    (trace : List (BreakerEvt × Nat)) (h : breakerInv cb) :
    breakerInv (runTrace cb trace) := by
  induction trace generalizing cb with
  | nil => exact h
  | cons p rest ih => exact ih _ (breakerInv_stepFn cb p.1 p.2 h)

theorem reachable_inv (cb : CircuitBreaker) (h : Reachable cb) :
    breakerInv cb := by
  obtain ⟨th, tmo, mp, n0, trace, rfl⟩ := h
  exact breakerInv_runTrace _ trace (breakerInv_new th tmo mp n0)

/-! ### Consecutive failures from CLOSED -/

theorem failTimes_cons (cb : CircuitBreaker) (t : Nat) (ts : List Nat)
    (hop : ¬ cb.state = "OPEN") :
    failTimes cb (t :: ts) = failTimes (onFailure cb t) ts := by
  simp only [failTimes, stepFn, execute_notOpen_false cb t hop]

theorem failTimes_closed (ts : List Nat) (cb : CircuitBreaker)
    (hs : cb.state = "CLOSED")
    (hlt : cb.failureCount + ts.length < cb.threshold) :
    (failTimes cb ts).state = "CLOSED" ∧
      (failTimes cb ts).failureCount = cb.failureCount + ts.length ∧
      (failTimes cb ts).threshold = cb.threshold := by
  induction ts generalizing cb with
  | nil => exact ⟨hs, by simp [failTimes], rfl⟩
  | cons t rest ih =>
    have hop : ¬ cb.state = "OPEN" := by rw [hs]; decide
    have hlt1 : cb.failureCount + 1 < cb.threshold := by
      simp only [List.length_cons] at hlt
      omega
    obtain ⟨hs1, hf1, ht1⟩ := onFailure_noTrip cb t hlt1
    rw [failTimes_cons cb t rest hop]
    obtain ⟨g1, g2, g3⟩ := ih (onFailure cb t) (hs1.trans hs)
      (by rw [hf1, ht1]; simp only [List.length_cons] at hlt; omega)
    refine ⟨g1, ?_, g3.trans ht1⟩
    rw [g2, hf1]
    simp only [List.length_cons]
    omega

theorem failTimes_opens (ts : List Nat) (cb : CircuitBreaker)
    (hs : cb.state = "CLOSED") (hne : ts ≠ [])
    (heq : cb.failureCount + ts.length = cb.threshold) :
    (failTimes cb ts).state = "OPEN" ∧
      (failTimes cb ts).failureCount = cb.threshold := by
  induction ts generalizing cb with
  | nil => exact absurd rfl hne
  | cons t rest ih =>
    have hop : ¬ cb.state = "OPEN" := by rw [hs]; decide
    rw [failTimes_cons cb t rest hop]
    cases rest with
    | nil =>
      have htr : cb.threshold ≤ cb.failureCount + 1 := by
        simp only [List.length_cons, List.length_nil] at heq
        omega
      obtain ⟨hs1, hf1, _, _⟩ := onFailure_trip cb t htr
      simp only [failTimes]
      refine ⟨hs1, ?_⟩
      rw [hf1]
      simp only [List.length_cons, List.length_nil] at heq
      omega
    | cons t2 rest2 =>
      have hlt1 : cb.failureCount + 1 < cb.threshold := by
        simp only [List.length_cons] at heq
        omega
      obtain ⟨hs1, hf1, ht1⟩ := onFailure_noTrip cb t hlt1
      obtain ⟨g1, g2⟩ := ih (onFailure cb t) (hs1.trans hs) (by simp)
        (by rw [hf1, ht1]; simp only [List.length_cons] at heq ⊢; omega)
      exact ⟨g1, g2.trans ht1⟩

/-! ## Claims about the circuit breaker -/

/-- C1: starting from a CLOSED breaker with no failures on record, after
exactly `failureThreshold` consecutive failures recorded while the state
is CLOSED, the state equals OPEN, and the very next `execute` call fails
immediately with the distinct circuit-open error without invoking the
wrapped operation. -/
theorem circuitBreaker_threshold_opens (cb : CircuitBreaker)
    (ts : List Nat) (hs : cb.state = "CLOSED") (hf : cb.failureCount = 0)
    (hth : 0 < cb.threshold) (hlen : ts.length = cb.threshold) :
    (∀ k, k < cb.threshold →
      (failTimes cb (ts.take k)).state = "CLOSED") ∧
    (failTimes cb ts).state = "OPEN" ∧
    (∀ ok now, execute (failTimes cb ts) ok now =
      { result := .circuitOpenError, invoked := false,
        cb := failTimes cb ts }) := by
  have hne : ts ≠ [] := by
    intro hnil
    rw [hnil] at hlen
    simp at hlen
    omega
  have hopen : (failTimes cb ts).state = "OPEN" :=
    (failTimes_opens ts cb hs hne (by rw [hf, hlen]; simp)).1
  refine ⟨?_, hopen, ?_⟩
  · intro k hk
    have hkl : (ts.take k).length = k := by
      rw [List.length_take]
      omega
    exact (failTimes_closed (ts.take k) cb hs (by rw [hf, hkl]; omega)).1
  · intro ok now
    exact execute_open _ ok now hopen

/-- Witness for C1 at threshold 3 with three failing calls. -/
theorem circuitBreaker_threshold_opens_witness :
    (failTimes (newCircuitBreaker 3 60000 10000 0) [5, 6, 7]).state =
      "OPEN" :=
  (circuitBreaker_threshold_opens (newCircuitBreaker 3 60000 10000 0)
    [5, 6, 7] rfl rfl (by decide) (by decide)).2.1

/-- C2: for a reachable breaker in state OPEN, once the clock passes
`nextAttempt` the monitoring timer moves it to HALF_OPEN, and the next
`execute` call is allowed through to the wrapped operation (invoked) as
a single probe, that call's outcome finalizing the state: CLOSED on
success, OPEN on failure. -/
theorem circuitBreaker_halfOpen_probe (cb : CircuitBreaker) (now : Nat)
    (hreach : Reachable cb) (hopen : cb.state = "OPEN")
    (hclock : cb.nextAttempt ≤ now) :
    (monitorTick cb now).state = "HALF_OPEN" ∧
    (∀ ok now2, (execute (monitorTick cb now) ok now2).invoked = true ∧
      (execute (monitorTick cb now) ok now2).cb.state =
        (if ok then "CLOSED" else "OPEN")) := by
  have hmt : monitorTick cb now = { cb with state := "HALF_OPEN" } := by
    unfold monitorTick
    simp [hopen, hclock]
  have hho : (monitorTick cb now).state = "HALF_OPEN" := by rw [hmt]
  refine ⟨hho, ?_⟩
  intro ok now2
  have hnotOpen : ¬ (monitorTick cb now).state = "OPEN" := by
    rw [hho]
    decide
  have hinv : cb.threshold ≤ cb.failureCount :=
    reachable_inv cb hreach (Or.inl hopen)
  cases ok with
  | true =>
    rw [execute_notOpen_true _ now2 hnotOpen]
    exact ⟨rfl, by simpa using (onSuccess_halfOpen (monitorTick cb now) hho).1⟩
  | false =>
    rw [execute_notOpen_false _ now2 hnotOpen]
    refine ⟨rfl, ?_⟩
    have htr : (monitorTick cb now).threshold ≤
        (monitorTick cb now).failureCount + 1 := by
      rw [hmt]
      exact le_trans hinv (Nat.le_succ _)
    simpa using (onFailure_trip (monitorTick cb now) now2 htr).1

/-- Witness for C2 on a concrete reachable OPEN breaker past its
cooldown. -/
theorem circuitBreaker_halfOpen_probe_witness :
    (monitorTick (runTrace (newCircuitBreaker 1 100 10 0)
      [(.opFailure, 50)]) 200).state = "HALF_OPEN" :=
  (circuitBreaker_halfOpen_probe
    (runTrace (newCircuitBreaker 1 100 10 0) [(.opFailure, 50)]) 200
    ⟨1, 100, 10, 0, [(.opFailure, 50)], rfl⟩ (by decide) (by decide)).1

/-- C3: one-step transition invariants of the breaker under the step
relation generated by `execute` success, `execute` failure and the
recovery-timer tick: any success while CLOSED or HALF_OPEN resets
`failureCount` to 0; OPEN is entered only by a failure whose updated
count reaches the threshold; HALF_OPEN is entered only by the timer
firing while OPEN with the clock past `nextAttempt`; CLOSED is entered
only from HALF_OPEN on success. -/
theorem circuitBreaker_transition_invariants :
    (∀ cb : CircuitBreaker,
      cb.state = "CLOSED" ∨ cb.state = "HALF_OPEN" →
        (onSuccess cb).failureCount = 0) ∧
    (∀ (cb : CircuitBreaker) (e : BreakerEvt) (now : Nat),
      ¬ cb.state = "OPEN" → (stepFn cb e now).state = "OPEN" →
        e = .opFailure ∧
        (stepFn cb e now).failureCount = cb.failureCount + 1 ∧
        cb.threshold ≤ (stepFn cb e now).failureCount) ∧
    (∀ (cb : CircuitBreaker) (e : BreakerEvt) (now : Nat),
      ¬ cb.state = "HALF_OPEN" → (stepFn cb e now).state = "HALF_OPEN" →
        e = .timerTick ∧ cb.state = "OPEN" ∧ cb.nextAttempt ≤ now) ∧
    (∀ (cb : CircuitBreaker) (e : BreakerEvt) (now : Nat),
      ¬ cb.state = "CLOSED" → (stepFn cb e now).state = "CLOSED" →
        e = .opSuccess ∧ cb.state = "HALF_OPEN") := by
  refine ⟨fun cb _ => onSuccess_failureCount cb, ?_, ?_, ?_⟩
  · intro cb e now hop hnew
    cases e with
    | opSuccess =>
      rw [stepFn, execute_notOpen_true cb now hop] at hnew
      by_cases hh : cb.state = "HALF_OPEN"
      · rw [(onSuccess_halfOpen cb hh).1] at hnew
        simp at hnew
      · rw [(onSuccess_notHalfOpen cb hh).1] at hnew
        exact absurd hnew hop
    | opFailure =>
      rw [stepFn, execute_notOpen_false cb now hop] at hnew ⊢
      by_cases htr : cb.threshold ≤ cb.failureCount + 1
      · obtain ⟨_, h2, _, _⟩ := onFailure_trip cb now htr
        rw [h2]
        exact ⟨rfl, rfl, htr⟩
      · obtain ⟨h1, _, _⟩ := onFailure_noTrip cb now (by omega)
        rw [h1] at hnew
        exact absurd hnew hop
    | timerTick =>
      rw [stepFn] at hnew
      unfold monitorTick at hnew
      by_cases hc : cb.state = "OPEN" ∧ cb.nextAttempt ≤ now
      · exact absurd hc.1 hop
      · rw [if_neg hc] at hnew
        exact absurd hnew hop
  · intro cb e now hnh hnew
    cases e with
    | opSuccess =>
      by_cases hop : cb.state = "OPEN"
      · rw [stepFn, execute_open cb true now hop] at hnew
        exact absurd hnew hnh
      · rw [stepFn, execute_notOpen_true cb now hop,
          (onSuccess_notHalfOpen cb hnh).1] at hnew
        exact absurd hnew hnh
    | opFailure =>
      by_cases hop : cb.state = "OPEN"
      · rw [stepFn, execute_open cb false now hop] at hnew
        exact absurd hnew hnh
      · rw [stepFn, execute_notOpen_false cb now hop] at hnew
        by_cases htr : cb.threshold ≤ cb.failureCount + 1
        · rw [(onFailure_trip cb now htr).1] at hnew
          simp at hnew
        · rw [(onFailure_noTrip cb now (by omega)).1] at hnew
          exact absurd hnew hnh
    | timerTick =>
      rw [stepFn] at hnew
      unfold monitorTick at hnew
      by_cases hc : cb.state = "OPEN" ∧ cb.nextAttempt ≤ now
      · exact ⟨rfl, hc.1, hc.2⟩
      · rw [if_neg hc] at hnew
        exact absurd hnew hnh
  · intro cb e now hnc hnew
    cases e with
    | opSuccess =>
      by_cases hop : cb.state = "OPEN"
      · rw [stepFn, execute_open cb true now hop] at hnew
        exact absurd hnew hnc
      · by_cases hh : cb.state = "HALF_OPEN"
        · exact ⟨rfl, hh⟩
        · rw [stepFn, execute_notOpen_true cb now hop,
            (onSuccess_notHalfOpen cb hh).1] at hnew
          exact absurd hnew hnc
    | opFailure =>
      by_cases hop : cb.state = "OPEN"
      · rw [stepFn, execute_open cb false now hop] at hnew
        exact absurd hnew hnc
      · rw [stepFn, execute_notOpen_false cb now hop] at hnew
        by_cases htr : cb.threshold ≤ cb.failureCount + 1
        · rw [(onFailure_trip cb now htr).1] at hnew
          simp at hnew
        · rw [(onFailure_noTrip cb now (by omega)).1] at hnew
          exact absurd hnew hnc
    | timerTick =>
      rw [stepFn] at hnew
      unfold monitorTick at hnew
      by_cases hc : cb.state = "OPEN" ∧ cb.nextAttempt ≤ now
      · rw [if_pos hc] at hnew
        simp at hnew
      · rw [if_neg hc] at hnew
        exact absurd hnew hnc

/-- Witness for C3, instantiating the CLOSED-entry conjunct on a
concrete HALF_OPEN breaker. -/
theorem circuitBreaker_transition_invariants_witness :
    BreakerEvt.opSuccess = BreakerEvt.opSuccess ∧
    (runTrace (newCircuitBreaker 1 100 10 0)
      [(.opFailure, 0), (.timerTick, 100)]).state = "HALF_OPEN" :=
  circuitBreaker_transition_invariants.2.2.2
    (runTrace (newCircuitBreaker 1 100 10 0)
      [(.opFailure, 0), (.timerTick, 100)])
    .opSuccess 0 (by decide) (by decide)

/-- C4: for a reachable breaker in state HALF_OPEN, an `execute` call
whose wrapped operation succeeds moves it to CLOSED with failureCount 0,
and one whose wrapped operation fails moves it back to OPEN with
`nextAttempt` freshly computed as the current time plus the cooldown
timeout. -/
theorem circuitBreaker_halfOpen_finalize (cb : CircuitBreaker)
    (now : Nat) (hreach : Reachable cb) (hho : cb.state = "HALF_OPEN") :
    ((execute cb true now).cb.state = "CLOSED" ∧
      (execute cb true now).cb.failureCount = 0) ∧
    ((execute cb false now).cb.state = "OPEN" ∧
      (execute cb false now).cb.nextAttempt = now + cb.timeout) := by
  have hop : ¬ cb.state = "OPEN" := by
    rw [hho]
    decide
  have hinv : cb.threshold ≤ cb.failureCount :=
    reachable_inv cb hreach (Or.inr hho)
  constructor
  · rw [execute_notOpen_true cb now hop]
    obtain ⟨h1, h2, _⟩ := onSuccess_halfOpen cb hho
    exact ⟨h1, h2⟩
  · rw [execute_notOpen_false cb now hop]
    obtain ⟨h1, _, _, h4⟩ :=
      onFailure_trip cb now (le_trans hinv (Nat.le_succ _))
    exact ⟨h1, h4⟩

/-- Witness for C4 on a concrete reachable HALF_OPEN breaker. -/
theorem circuitBreaker_halfOpen_finalize_witness :
    ((execute (runTrace (newCircuitBreaker 1 100 10 0)
        [(.opFailure, 0), (.timerTick, 100)]) true 123).cb.state =
        "CLOSED" ∧
      (execute (runTrace (newCircuitBreaker 1 100 10 0)
        [(.opFailure, 0), (.timerTick, 100)]) true 123).cb.failureCount =
        0) ∧
    ((execute (runTrace (newCircuitBreaker 1 100 10 0)
        [(.opFailure, 0), (.timerTick, 100)]) false 123).cb.state =
        "OPEN" ∧
      (execute (runTrace (newCircuitBreaker 1 100 10 0)
        [(.opFailure, 0), (.timerTick, 100)]) false 123).cb.nextAttempt =
        123 + (runTrace (newCircuitBreaker 1 100 10 0)
          [(.opFailure, 0), (.timerTick, 100)]).timeout) :=
  circuitBreaker_halfOpen_finalize
    (runTrace (newCircuitBreaker 1 100 10 0)
      [(.opFailure, 0), (.timerTick, 100)]) 123
    ⟨1, 100, 10, 0, [(.opFailure, 0), (.timerTick, 100)], rfl⟩
    (by decide)

/-!
## Error classification and retry delay

Embeds `APIClient.shouldRetry` and `APIClient.calculateRetryDelay`.
JS errors are modelled by their `name` and optional numeric `status`
(`undefined` comparisons like `undefined >= 500` are false, matching
`status = none` here).  The `APIError` constructor sets
`name = "APIError"` and a numeric status.
-/

structure JsError where
  name : String
  status : Option Nat
deriving DecidableEq, Repr

/-- The structured error `new APIError(message, status, ...)` thrown on
a non-ok HTTP response with this status. -/
def apiError (status : Nat) : JsError :=
  { name := "APIError", status := some status }

/-- `APIClient.shouldRetry(error)`. -/
def shouldRetry (e : JsError) : Bool :=
  (e.name == "AbortError") || (e.name == "TypeError") ||
    (match e.status with
     | some s => (decide (500 ≤ s) && decide (s < 600)) || (s == 429)
     | none => false)

/-- `APIClient.calculateRetryDelay(attempt, baseDelay)` with the random
jitter draw (`Math.random() * 1000`) made explicit. -/
def calculateRetryDelay (attempt : Nat) (baseDelay jitter : ℚ) : ℚ :=
  min (baseDelay * 2 ^ attempt + jitter) 30000

/-- C6: `shouldRetry(error)` returns true exactly when the error is a
timeout/abort (`AbortError`), a generic network/type error
(`TypeError`), an HTTP error with status in [500, 600), or an HTTP
error with status 429; every other error — in particular any 4xx other
than 429 — is classified fatal. -/
theorem shouldRetry_characterization (e : JsError) :
    shouldRetry e = true ↔
      e.name = "AbortError" ∨ e.name = "TypeError" ∨
        (∃ s, e.status = some s ∧ ((500 ≤ s ∧ s < 600) ∨ s = 429)) := by
  unfold shouldRetry
  cases hs : e.status with
  | none => simp
  | some s => simp [hs, and_assoc, or_assoc]

/-- C8: the retry delay for 0-indexed attempt `n` with jitter drawn in
[0, 1000) equals `min(baseRetryDelayMs * 2^n + jitter, 30000)`, hence
lies between `baseRetryDelayMs * 2^n` and `baseRetryDelayMs * 2^n +
1000`, both capped at 30000. -/
theorem calculateRetryDelay_bounds (n : Nat) (base j : ℚ)
    (h0 : 0 ≤ j) (h1 : j < 1000) :
    calculateRetryDelay n base j = min (base * 2 ^ n + j) 30000 ∧
    min (base * 2 ^ n) 30000 ≤ calculateRetryDelay n base j ∧
    calculateRetryDelay n base j ≤ min (base * 2 ^ n + 1000) 30000 := by
  refine ⟨rfl, ?_, ?_⟩
  · unfold calculateRetryDelay
    exact min_le_min (by linarith) le_rfl
  · unfold calculateRetryDelay
    exact min_le_min (by linarith) le_rfl

/-- Witness for C8 at attempt 2, base delay 1000, jitter 500. -/
theorem calculateRetryDelay_bounds_witness :
    calculateRetryDelay 2 1000 500 = min (1000 * 2 ^ 2 + 500) 30000 ∧
    min (1000 * 2 ^ 2) 30000 ≤ calculateRetryDelay 2 1000 (500 : ℚ) ∧
    calculateRetryDelay 2 1000 500 ≤ min (1000 * 2 ^ 2 + 1000) 30000 :=
  calculateRetryDelay_bounds 2 1000 500 (by norm_num) (by norm_num)

/-!
## Request metrics

Embeds the `metrics` record and `APIClient.updateMetrics`.  The JS
`requestTimes` array is pushed at the back and shifted at the front.
-/

structure Metrics where
  totalRequests : Nat
  successfulRequests : Nat
  failedRequests : Nat
  averageResponseTime : ℚ
  requestTimes : List Nat
deriving DecidableEq, Repr

/-- The metrics record as set up in the `APIClient` constructor. -/
def initMetrics : Metrics :=
  { totalRequests := 0
    successfulRequests := 0
    failedRequests := 0
    averageResponseTime := 0
    requestTimes := [] }

/-- `APIClient.updateMetrics(success, duration)`. -/
def updateMetrics (m : Metrics) (success : Bool) (duration : Nat) :
    Metrics :=
  let m1 := if success then
      { m with successfulRequests := m.successfulRequests + 1 }
    else
      { m with failedRequests := m.failedRequests + 1 }
  let t1 := m1.requestTimes ++ [duration]
  let t2 := if 100 < t1.length then t1.drop 1 else t1
  { m1 with
    requestTimes := t2
    averageResponseTime := ((t2.sum : ℚ)) / (t2.length : ℚ) }

theorem updateMetrics_requestTimes (m : Metrics) (s : Bool) (d : Nat) :
    (updateMetrics m s d).requestTimes =
      (if 100 < m.requestTimes.length + 1 then
        (m.requestTimes ++ [d]).drop 1
      else m.requestTimes ++ [d]) := by
  unfold updateMetrics
  cases s <;> simp

/-- C9: over any sequence of `updateMetrics` calls starting from the
fresh metrics record, the rolling duration window `requestTimes` never
exceeds 100 entries; moreover, inserting a duration when the window
already holds 100 entries evicts the oldest (front) entry while
appending the new one at the back. -/
theorem requestTimes_bounded (calls : List (Bool × Nat)) (m : Metrics)
    (s : Bool) (d : Nat) :
    ((calls.foldl (fun acc c => updateMetrics acc c.1 c.2)
      initMetrics).requestTimes.length ≤ 100) ∧
    (m.requestTimes.length ≤ 100 →
      (updateMetrics m s d).requestTimes.length ≤ 100) ∧
    (m.requestTimes.length = 100 →
      (updateMetrics m s d).requestTimes =
        m.requestTimes.drop 1 ++ [d]) := by
  have hstep : ∀ (m1 : Metrics) (s1 : Bool) (d1 : Nat),
      m1.requestTimes.length ≤ 100 →
        (updateMetrics m1 s1 d1).requestTimes.length ≤ 100 := by
    intro m1 s1 d1 hle
    rw [updateMetrics_requestTimes]
    by_cases hc : 100 < m1.requestTimes.length + 1
    · rw [if_pos hc]
      simp
      omega
    · rw [if_neg hc]
      simp
      omega
  refine ⟨?_, hstep m s d, ?_⟩
  · have hgen : ∀ (cs : List (Bool × Nat)) (m0 : Metrics),
        m0.requestTimes.length ≤ 100 →
          (cs.foldl (fun acc c => updateMetrics acc c.1 c.2)
            m0).requestTimes.length ≤ 100 := by
      intro cs
      induction cs with
      | nil => intro m0 h0; exact h0
      | cons c rest ih =>
        intro m0 h0
        exact ih _ (hstep m0 c.1 c.2 h0)
    exact hgen calls initMetrics (by simp [initMetrics])
  · intro h100
    rw [updateMetrics_requestTimes, if_pos (by omega)]
    rw [List.drop_append_of_le_length (by omega)]

/-- Witness for C9 on a window already holding 100 entries. -/
theorem requestTimes_bounded_witness :
    (updateMetrics
      { totalRequests := 0, successfulRequests := 0, failedRequests := 0,
        averageResponseTime := 0, requestTimes := List.replicate 100 5 }
      true 7).requestTimes = (List.replicate 100 5).drop 1 ++ [7] :=
  (requestTimes_bounded []
    { totalRequests := 0, successfulRequests := 0, failedRequests := 0,
      averageResponseTime := 0, requestTimes := List.replicate 100 5 }
    true 7).2.2 (by simp)

/-!
## Request executor

Embeds the retry loop of `APIClient.executeRequest`.  The network and
the jitter draws are oracles: `net n` is the outcome of the `n`-th
network attempt issued by the client (counted across re-issues), and
`jitter n` the jitter drawn if a delay is computed after that attempt.
The metrics/logging response interceptor re-rejects with the same error,
so it is observationally the identity on the error path; the
token-refresh error interceptor is embedded explicitly.  A re-issued
request carries `_retry = true`, on which that interceptor just
rethrows, so the re-issued executor (`execRetried`) has no refresh
branch, while the fresh executor (`execFresh`) refreshes on a 401 and
re-issues through `execRetried`.
-/

inductive NetResp where
  | ok
  | httpError (status : Nat)
  | netError (name : String)
deriving DecidableEq, Repr

/-- The error thrown inside one attempt, if any: a non-ok response is
turned into `new APIError(..., status, ...)` and thrown; a fetch
failure propagates with its native name (`TypeError`, `AbortError`). -/
def respError : NetResp → Option JsError
  | .ok => none
  | .httpError s => some (apiError s)
  | .netError n => some { name := n, status := none }

/-- The plain `Error` thrown by `refreshToken` when the refresh fails. -/
def refreshFailedError : JsError := { name := "Error", status := none }

structure NetEnv where
  net : Nat → NetResp
  refreshOk : Bool
  jitter : Nat → ℚ

/-- Observable counters of one `executeRequest` run: network attempts
issued, `refreshToken` calls, re-issues of the original request, and
the backoff delays slept. -/
structure ExecState where
  attempts : Nat
  refreshes : Nat
  reissues : Nat
  delays : List ℚ
deriving DecidableEq, Repr

def initExecState : ExecState :=
  { attempts := 0, refreshes := 0, reissues := 0, delays := [] }

/-- The attempt loop of `executeRequest` for a config already marked
`_retry = true` (a re-issued request): on an error the token-refresh
interceptor rethrows it, so the loop proceeds directly to retry
classification.  `remaining` counts the loop iterations still allowed
after the current one (`retries - attempt` in the source). -/
def execRetried (env : NetEnv) (base : ℚ) :
    Nat → Nat → ExecState → Except JsError Unit × ExecState
  | attemptIdx, remaining, st =>
    let st1 : ExecState := { st with attempts := st.attempts + 1 }
    match respError (env.net st.attempts) with
    | none => (Except.ok (), st1)
    | some e =>
      match remaining with
      | 0 => (Except.error e, st1)
      | r + 1 =>
        if shouldRetry e then
          execRetried env base (attemptIdx + 1) r
            { st1 with delays := st1.delays ++
              [calculateRetryDelay attemptIdx base (env.jitter st.attempts)] }
        else (Except.error e, st1)

/-- The attempt loop of `executeRequest` for a fresh config (`_retry`
unset): on a 401 error the token-refresh interceptor fires; if the
refresh call succeeds the original request is re-issued (through
`execRetried`, as `request` marks `_retry = true`) and its result
returned, an error of the re-issue replacing `lastError`; if the
refresh fails, the session is invalidated and the refresh error
replaces `lastError`.  Retry classification always inspects the
originally caught error. -/
def execFresh (env : NetEnv) (base : ℚ) (retries : Nat) :
    Nat → Nat → ExecState → Except JsError Unit × ExecState
  | attemptIdx, remaining, st =>
    let st1 : ExecState := { st with attempts := st.attempts + 1 }
    match respError (env.net st.attempts) with
    | none => (Except.ok (), st1)
    | some e =>
      if e.status = some 401 then
        if env.refreshOk then
          let stR : ExecState := { st1 with
            refreshes := st1.refreshes + 1
            reissues := st1.reissues + 1 }
          match execRetried env base 0 retries stR with
          | (Except.ok u, st2) => (Except.ok u, st2)
          | (Except.error ie, st2) =>
            match remaining with
            | 0 => (Except.error ie, st2)
            | r + 1 =>
              if shouldRetry e then
                execFresh env base retries (attemptIdx + 1) r
                  { st2 with delays := st2.delays ++
                    [calculateRetryDelay attemptIdx base
                      (env.jitter st.attempts)] }
              else (Except.error ie, st2)
        else
          let st2 : ExecState := { st1 with refreshes := st1.refreshes + 1 }
          match remaining with
          | 0 => (Except.error refreshFailedError, st2)
          | r + 1 =>
            if shouldRetry e then
              execFresh env base retries (attemptIdx + 1) r
                { st2 with delays := st2.delays ++
                  [calculateRetryDelay attemptIdx base
                    (env.jitter st.attempts)] }
            else (Except.error refreshFailedError, st2)
      else
        match remaining with
        | 0 => (Except.error e, st1)
        | r + 1 =>
          if shouldRetry e then
            execFresh env base retries (attemptIdx + 1) r
              { st1 with delays := st1.delays ++
                [calculateRetryDelay attemptIdx base
                  (env.jitter st.attempts)] }
          else (Except.error e, st1)

/-- One call of `executeRequest(config)` on a fresh config with retry
budget `retries` and base delay `base`: the loop runs for attempt
indices 0 through `retries`. -/
def executeRequest (env : NetEnv) (base : ℚ) (retries : Nat) :
    Except JsError Unit × ExecState :=
  execFresh env base retries 0 retries initExecState

theorem execFresh_all500 (env : NetEnv) (base : ℚ) (retries : Nat)
    (h : ∀ n, env.net n = .httpError 500) :
    ∀ (remaining attemptIdx : Nat) (st : ExecState),
      (execFresh env base retries attemptIdx remaining st).1 =
        Except.error (apiError 500) ∧
      (execFresh env base retries attemptIdx remaining st).2.attempts =
        st.attempts + remaining + 1 ∧
      (execFresh env base retries attemptIdx remaining st).2.delays.length
        = st.delays.length + remaining := by
  have hs401 : ¬ (apiError 500).status = some 401 := by simp [apiError]
  have h500 : shouldRetry (apiError 500) = true := rfl
  intro remaining
  induction remaining with
  | zero =>
    intro attemptIdx st
    unfold execFresh
    rw [h]
    simp [respError, hs401]
  | succ r ih =>
    intro attemptIdx st
    unfold execFresh
    rw [h]
    simp only [respError, hs401, if_false, h500, if_true]
    obtain ⟨g1, g2, g3⟩ := ih (attemptIdx + 1)
      { st with
        attempts := st.attempts + 1
        delays := st.delays ++
          [calculateRetryDelay attemptIdx base (env.jitter st.attempts)] }
    refine ⟨g1, ?_, ?_⟩
    · rw [g2]
      simp
      omega
    · rw [g3]
      simp
      omega


/-- C5: if the network returns a 500 response on every attempt,
`executeRequest` with retry budget `maxRetries` issues exactly
`maxRetries + 1` network attempts, sleeping a backoff delay between
consecutive attempts, and then throws the final 500 APIError; if the
first attempt returns a 404 response, it issues exactly 1 attempt and
throws the 404 APIError immediately with no retry delay incurred and
no refresh or re-issue. -/
theorem executeRequest_attempt_counts (env : NetEnv) (base : ℚ)
    (retries : Nat) :
    ((∀ n, env.net n = .httpError 500) →
      (executeRequest env base retries).1 = Except.error (apiError 500) ∧
      (executeRequest env base retries).2.attempts = retries + 1 ∧
      (executeRequest env base retries).2.delays.length = retries) ∧
    (env.net 0 = .httpError 404 →
      executeRequest env base retries =
        (Except.error (apiError 404),
          { initExecState with attempts := 1 })) := by
  constructor
  · intro h
    obtain ⟨g1, g2, g3⟩ :=
      execFresh_all500 env base retries h retries 0 initExecState
    unfold executeRequest
    refine ⟨g1, ?_, ?_⟩
    · rw [g2]
      simp [initExecState]
    · rw [g3]
      simp [initExecState]
  · intro h404
    have h0 : initExecState.attempts = 0 := rfl
    unfold executeRequest execFresh
    rw [h0, h404]
    simp only [respError]
    rw [if_neg (by simp [apiError])]
    have hsr404 : shouldRetry (apiError 404) = false := rfl
    cases retries with
    | zero => rfl
    | succ r => simp [hsr404]

theorem execRetried_counters (env : NetEnv) (base : ℚ) :
    ∀ (remaining attemptIdx : Nat) (st : ExecState),
      (execRetried env base attemptIdx remaining st).2.refreshes =
        st.refreshes ∧
      (execRetried env base attemptIdx remaining st).2.reissues =
        st.reissues ∧
      st.attempts + 1 ≤
        (execRetried env base attemptIdx remaining st).2.attempts := by
  intro remaining
  induction remaining with
  | zero =>
    intro attemptIdx st
    unfold execRetried
    cases hresp : respError (env.net st.attempts) with
    | none => simp
    | some e => simp
  | succ r ih =>
    intro attemptIdx st
    unfold execRetried
    cases hresp : respError (env.net st.attempts) with
    | none => simp
    | some e =>
      by_cases hsr : shouldRetry e = true
      · simp only [hsr, if_true]
        obtain ⟨g1, g2, g3⟩ := ih (attemptIdx + 1)
          { st with
            attempts := st.attempts + 1
            delays := st.delays ++
              [calculateRetryDelay attemptIdx base (env.jitter st.attempts)] }
        refine ⟨by simpa using g1, by simpa using g2, ?_⟩
        simp at g3
        omega
      · simp [hsr]

theorem execFresh_401 (env : NetEnv) (base : ℚ)
    (retries attemptIdx remaining : Nat) (st : ExecState)
    (h0 : env.net st.attempts = .httpError 401)
    (hr : env.refreshOk = true) :
    execFresh env base retries attemptIdx remaining st =
      execRetried env base 0 retries
        { st with
          attempts := st.attempts + 1
          refreshes := st.refreshes + 1
          reissues := st.reissues + 1 } := by
  have hsr : ¬ shouldRetry (apiError 401) = true := by decide
  unfold execFresh
  rw [h0]
  simp only [respError]
  rw [if_pos (show (apiError 401).status = some 401 from rfl), if_pos hr]
  rcases hcase : execRetried env base 0 retries
    { st with
      attempts := st.attempts + 1
      refreshes := st.refreshes + 1
      reissues := st.reissues + 1 } with ⟨res, st2⟩
  cases res with
  | ok u => simp
  | error ie =>
    cases remaining with
    | zero => simp
    | succ r => simp [hsr]


/-- C7: a logical request whose first attempt receives a 401 performs
exactly one token-refresh attempt and exactly one re-issue of the
original request (the re-issued config carries `_retry = true`); if the
re-issued request receives a second 401, no second refresh happens —
the run ends after exactly the two attempts, with the 401 APIError
propagating and no retry delay. -/
theorem refresh_on_401_once (env : NetEnv) (base : ℚ) (retries : Nat)
    (h0 : env.net 0 = .httpError 401) (hr : env.refreshOk = true) :
    (executeRequest env base retries).2.refreshes = 1 ∧
    (executeRequest env base retries).2.reissues = 1 ∧
    2 ≤ (executeRequest env base retries).2.attempts ∧
    (env.net 1 = .httpError 401 →
      executeRequest env base retries =
        (Except.error (apiError 401),
          { attempts := 2, refreshes := 1, reissues := 1, delays := [] })) := by
  have h0i : env.net initExecState.attempts = .httpError 401 := h0
  have hstep := execFresh_401 env base retries 0 retries initExecState h0i hr
  have hS : ({ initExecState with
      attempts := initExecState.attempts + 1
      refreshes := initExecState.refreshes + 1
      reissues := initExecState.reissues + 1 } : ExecState) =
      { attempts := 1, refreshes := 1, reissues := 1, delays := [] } := rfl
  rw [hS] at hstep
  unfold executeRequest
  rw [hstep]
  obtain ⟨g1, g2, g3⟩ := execRetried_counters env base retries 0
    { attempts := 1, refreshes := 1, reissues := 1, delays := [] }
  refine ⟨by simpa using g1, by simpa using g2, by simpa using g3, ?_⟩
  intro h1
  have hSa : (⟨1, 1, 1, []⟩ : ExecState).attempts = 1 := rfl
  have hsr : shouldRetry (apiError 401) = false := rfl
  unfold execRetried
  rw [hSa, h1]
  simp only [respError]
  cases retries with
  | zero => rfl
  | succ r => simp [hsr]


/-- A network returning HTTP 500 on every attempt. -/
def env500 : NetEnv :=
  { net := fun _ => .httpError 500, refreshOk := false, jitter := fun _ => 0 }

/-- A network returning HTTP 404 on the first attempt. -/
def env404 : NetEnv :=
  { net := fun n => if n = 0 then .httpError 404 else .ok
    refreshOk := false
    jitter := fun _ => 0 }

/-- A network returning HTTP 401 on every attempt, with a refresh call
that succeeds. -/
def env401 : NetEnv :=
  { net := fun _ => .httpError 401, refreshOk := true, jitter := fun _ => 0 }

/-- Witness for C5: budget of 3 retries against an all-500 network, and
a 404 on the first attempt. -/
theorem executeRequest_attempt_counts_witness :
    ((executeRequest env500 1000 3).1 = Except.error (apiError 500) ∧
      (executeRequest env500 1000 3).2.attempts = 3 + 1 ∧
      (executeRequest env500 1000 3).2.delays.length = 3) ∧
    executeRequest env404 1000 3 =
      (Except.error (apiError 404), { initExecState with attempts := 1 }) :=
  ⟨(executeRequest_attempt_counts env500 1000 3).1 (fun _ => rfl),
    (executeRequest_attempt_counts env404 1000 3).2 rfl⟩

/-- Witness for C7: a 401 on both the first attempt and the re-issue. -/
theorem refresh_on_401_once_witness :
    (executeRequest env401 1000 3).2.refreshes = 1 ∧
    (executeRequest env401 1000 3).2.reissues = 1 ∧
    2 ≤ (executeRequest env401 1000 3).2.attempts ∧
    executeRequest env401 1000 3 =
      (Except.error (apiError 401),
        { attempts := 2, refreshes := 1, reissues := 1, delays := [] }) := by
  obtain ⟨a, b, c, d⟩ := refresh_on_401_once env401 1000 3 rfl rfl
  exact ⟨a, b, c, d rfl⟩


/-!
## Service routing and the circuit-breaker map

Embeds `APIClient.initializeCircuitBreakers`, `getServiceFromUrl` and
the breaker dispatch in `request`.  URL strings are modelled as
character lists; `containsSeq s pat` is JS `s.includes(pat)`.
-/

/-- `s.startsWith(pat)` on character lists. -/
def startsWithSeq : List Char → List Char → Bool
  | _, [] => true
  | [], _ :: _ => false
  | c :: s, p :: ps => c == p && startsWithSeq s ps

/-- `s.includes(pat)` on character lists: `pat` occurs contiguously. -/
def containsSeq : List Char → List Char → Bool
  | [], pat => pat.isEmpty
  | c :: s, pat => startsWithSeq (c :: s) pat || containsSeq s pat

/-- `APIClient.getServiceFromUrl(url)`. -/
def getServiceFromUrl (url : List Char) : String :=
  if containsSeq url "/api/products".toList ||
      containsSeq url "/products".toList then "products"
  else if containsSeq url "/api/auth".toList ||
      containsSeq url "/auth".toList then "auth"
  else if containsSeq url "/api/orders".toList ||
      containsSeq url "/orders".toList then "orders"
  else "unknown"

/-- The service list iterated by `initializeCircuitBreakers`. -/
def serviceNames : List String := ["products", "auth", "orders"]

/-- `APIClient.initializeCircuitBreakers`, creating one
`new CircuitBreaker(5, 60000, 10000)` per service name at clock `now`;
the breaker map is modelled as an association list. -/
def initCircuitBreakers (now : Nat) : List (String × CircuitBreaker) :=
  serviceNames.map (fun s => (s, newCircuitBreaker 5 60000 10000 now))

/-- How `APIClient.request` dispatches a processed config: through the
service breaker when the map lookup finds one, else directly to
`executeRequest`. -/
inductive Dispatch where
  | throughBreaker (service : String)
  | direct
deriving DecidableEq, Repr

/-- The dispatch decision of `APIClient.request` for a URL. -/
def requestDispatch (breakers : List (String × CircuitBreaker))
    (url : List Char) : Dispatch :=
  match breakers.lookup (getServiceFromUrl url) with
  | some _ => .throughBreaker (getServiceFromUrl url)
  | none => .direct

theorem startsWithSeq_append (p q s : List Char)
    (h : startsWithSeq s (p ++ q) = true) : containsSeq s q = true := by
  induction p generalizing s with
  | nil =>
    simp only [List.nil_append] at h
    cases s with
    | nil =>
      cases q with
      | nil => rfl
      | cons c cs => exact absurd h (by simp [startsWithSeq])
    | cons c cs =>
      unfold containsSeq
      rw [h]
      rfl
  | cons a p ih =>
    cases s with
    | nil => exact absurd h (by simp [startsWithSeq])
    | cons c cs =>
      simp only [List.cons_append, startsWithSeq, Bool.and_eq_true] at h
      have := ih cs h.2
      unfold containsSeq
      rw [this]
      simp

theorem containsSeq_append_right (p q s : List Char)
    (h : containsSeq s (p ++ q) = true) : containsSeq s q = true := by
  induction s with
  | nil =>
    unfold containsSeq at h ⊢
    simp at h
    simp [h.2]
  | cons c cs ih =>
    unfold containsSeq at h
    rcases Bool.or_eq_true_iff.mp h with h1 | h1
    · exact startsWithSeq_append p q (c :: cs) h1
    · unfold containsSeq
      rw [ih h1]
      simp

/-- C10: exactly the three breakers for "products", "auth" and "orders"
are created at `APIClient` construction; any URL containing none of the
substrings "/products", "/auth", "/orders" maps to service "unknown",
the breaker-map lookup finds nothing, and `request` dispatches the call
directly to `executeRequest`, bypassing every breaker — so it can never
be rejected with a circuit-open error and its failures touch no breaker
state. -/
theorem unknown_service_direct_dispatch (url : List Char) (now : Nat)
    (h1 : containsSeq url "/products".toList = false)
    (h2 : containsSeq url "/auth".toList = false)
    (h3 : containsSeq url "/orders".toList = false) :
    (initCircuitBreakers now).map Prod.fst =
      ["products", "auth", "orders"] ∧
    getServiceFromUrl url = "unknown" ∧
    (initCircuitBreakers now).lookup (getServiceFromUrl url) = none ∧
    requestDispatch (initCircuitBreakers now) url = .direct := by
  have hap : containsSeq url "/api/products".toList = false := by
    by_contra hc
    simp only [Bool.not_eq_false] at hc
    have h4 := containsSeq_append_right "/api".toList "/products".toList url hc
    rw [h4] at h1
    exact absurd h1 (by decide)
  have haa : containsSeq url "/api/auth".toList = false := by
    by_contra hc
    simp only [Bool.not_eq_false] at hc
    have h4 := containsSeq_append_right "/api".toList "/auth".toList url hc
    rw [h4] at h2
    exact absurd h2 (by decide)
  have hao : containsSeq url "/api/orders".toList = false := by
    by_contra hc
    simp only [Bool.not_eq_false] at hc
    have h4 := containsSeq_append_right "/api".toList "/orders".toList url hc
    rw [h4] at h3
    exact absurd h3 (by decide)
  have hserv : getServiceFromUrl url = "unknown" := by
    unfold getServiceFromUrl
    rw [hap, h1, haa, h2, hao, h3]
    rfl
  refine ⟨rfl, hserv, ?_, ?_⟩
  · rw [hserv]
    rfl
  · unfold requestDispatch
    rw [hserv]
    rfl

/-- Witness for C10 on a URL that names none of the three services. -/
theorem unknown_service_direct_dispatch_witness :
    getServiceFromUrl "/cart/items".toList = "unknown" ∧
    requestDispatch (initCircuitBreakers 0) "/cart/items".toList =
      .direct :=
  ⟨(unknown_service_direct_dispatch "/cart/items".toList 0
      (by decide) (by decide) (by decide)).2.1,
    (unknown_service_direct_dispatch "/cart/items".toList 0
      (by decide) (by decide) (by decide)).2.2.2⟩

end ShopSmart
